import Mathlib

/-!
Shallow embedding of the `ConfidentialVotingAutoRegister` Solidity contract
(source: `src/hardhat.config.ts`, contract section) and proofs about it.

Modelling choices:
* Addresses are `Nat` (`0` is the zero address), `block.timestamp` is a `Nat`
  passed to each time-dependent call, and `bytes` values are `List Nat`.
* An `euint8` ciphertext is modelled by its 8-bit plaintext (`Nat` reduced
  mod 256); the FHE library operations `FHE.asEuint8`, `FHE.add`, `FHE.sub`,
  `FHE.mul` are the corresponding wraparound operations on plaintexts.
* `FHE.fromExternal(handle, attestation)` is modelled by passing the decoded
  plaintext of the external handle together with one Boolean saying whether
  the attestation proof verifies for this call; when it is false the call
  reverts (`InvalidCiphertext`), as the input verifier would.
* ACL bookkeeping calls (`FHE.allow`, `FHE.allowThis`,
  `FHE.makePubliclyDecryptable`) are recorded in an append-only log,
  each entry carrying the plaintext value the permission was granted on.
* EVM revert semantics: each external call is a function from a pre-state to
  `Except VoteError ContractState`; a transaction-level wrapper (`txExec`)
  keeps the pre-state whenever the call reverts, so no partial writes or
  events of a reverted call persist.
* `require(cond, "msg")` failures are mapped to the error taxonomy of the
  specification: "Only admin"/"Not registered" → `Unauthorized`,
  "Voting closed" → `VotingClosed`, "Contract not initialized" →
  `NotInitialized`, "Already initialized" → `AlreadyInitialized`,
  "Already registered" → `AlreadyRegistered`, "Already voted" →
  `AlreadyVoted`, "Zero address" → `InvalidArgument`,
  "Duration must be positive" → `InvalidConfiguration`, input-verifier
  rejection → `InvalidCiphertext`.
-/

namespace ConfidentialVoting

/-- Plaintext semantics of `FHE.asEuint8`: an 8-bit value. -/
def fheAsEuint8 (n : Nat) : Nat := n % 256

/-- Plaintext semantics of `FHE.add` on `euint8`: wraparound addition mod 2^8. -/
def fheAdd (a b : Nat) : Nat := (a + b) % 256

/-- Plaintext semantics of `FHE.sub` on `euint8`: wraparound subtraction mod 2^8. -/
def fheSub (a b : Nat) : Nat := (a + (256 - b % 256)) % 256

/-- Plaintext semantics of `FHE.mul` on `euint8`: wraparound multiplication mod 2^8. -/
def fheMul (a b : Nat) : Nat := (a * b) % 256

/-- The three events the contract can emit. -/
inductive Event where
  | VoterRegistered (voter : Nat) (extraData : List Nat)
  | VoteCast (voter : Nat) (extraData : List Nat)
  | TallyAccessGranted (viewer : Nat) (extraData : List Nat)
  deriving DecidableEq

/-- Which of the two encrypted tallies an ACL entry refers to. -/
inductive Slot where
  | yes
  | no
  deriving DecidableEq

/-- One FHE access-control bookkeeping action, recorded with the plaintext
value of the ciphertext it was performed on. -/
inductive AclEntry where
  | tallyViewer (slot : Slot) (value : Nat) (viewer : Nat)
  | tallyContract (slot : Slot) (value : Nat)
  | tallyPublic (slot : Slot) (value : Nat)
  | voteViewer (value : Nat) (viewer : Nat)
  | validityViewer (valid : Bool) (viewer : Nat)
  deriving DecidableEq

/-- The error taxonomy of the specification, covering every revert reason of
the contract. -/
inductive VoteError where
  | InvalidConfiguration
  | Unauthorized
  | AlreadyInitialized
  | NotInitialized
  | AlreadyRegistered
  | AlreadyVoted
  | VotingClosed
  | InvalidArgument
  | InvalidCiphertext
  deriving DecidableEq

/-- The persistent storage of the contract, plus the append-only event and
ACL logs. -/
structure ContractState where
  admin : Nat
  votingEndTime : Nat
  initialized : Bool
  totalYesVotes : Nat
  totalNoVotes : Nat
  isRegistered : Nat → Bool
  hasVoted : Nat → Bool
  events : List Event
  aclLog : List AclEntry

/-- The constructor: `require(durationInSeconds > 0)`, then sets `admin` to
the deployer and `votingEndTime = block.timestamp + durationInSeconds`; all
other storage has its Solidity default value. -/
def construct (sender now durationInSeconds : Nat) :
    Except VoteError ContractState :=
  if 0 < durationInSeconds then
    .ok {
      admin := sender
      votingEndTime := now + durationInSeconds
      initialized := false
      totalYesVotes := 0
      totalNoVotes := 0
      isRegistered := fun _ => false
      hasVoted := fun _ => false
      events := []
      aclLog := [] }
  else .error .InvalidConfiguration

/-- `init()`: `onlyAdmin`, `require(!initialized)`, then sets both totals to
`FHE.asEuint8(0)` and flips `initialized`. -/
def init (s : ContractState) (sender : Nat) : Except VoteError ContractState :=
  if sender ≠ s.admin then .error .Unauthorized
  else if s.initialized then .error .AlreadyInitialized
  else .ok { s with
    totalYesVotes := fheAsEuint8 0
    totalNoVotes := fheAsEuint8 0
    initialized := true }

/-- `registerVoter(voter, extraData)`: `onlyAdmin`, `require(voter != 0)`,
`require(!isRegistered[voter])`, then registers and emits
`VoterRegistered`. -/
def registerVoter (s : ContractState) (sender voter : Nat)
    (extraData : List Nat) : Except VoteError ContractState :=
  if sender ≠ s.admin then .error .Unauthorized
  else if voter = 0 then .error .InvalidArgument
  else if s.isRegistered voter then .error .AlreadyRegistered
  else .ok { s with
    isRegistered := fun a => if a = voter then true else s.isRegistered a
    events := s.events ++ [Event.VoterRegistered voter extraData] }

/-- `allowTallyAccess(viewer, extraData)`: `onlyAdmin`,
`require(viewer != 0)`, then `FHE.allow` on both totals and emits
`TallyAccessGranted`. -/
def allowTallyAccess (s : ContractState) (sender viewer : Nat)
    (extraData : List Nat) : Except VoteError ContractState :=
  if sender ≠ s.admin then .error .Unauthorized
  else if viewer = 0 then .error .InvalidArgument
  else .ok { s with
    aclLog := s.aclLog ++
      [AclEntry.tallyViewer Slot.yes s.totalYesVotes viewer,
       AclEntry.tallyViewer Slot.no s.totalNoVotes viewer]
    events := s.events ++ [Event.TallyAccessGranted viewer extraData] }

/-- `makeTallyPublic()`: `onlyAdmin`, then `FHE.makePubliclyDecryptable` on
both totals. -/
def makeTallyPublic (s : ContractState) (sender : Nat) :
    Except VoteError ContractState :=
  if sender ≠ s.admin then .error .Unauthorized
  else .ok { s with
    aclLog := s.aclLog ++
      [AclEntry.tallyPublic Slot.yes s.totalYesVotes,
       AclEntry.tallyPublic Slot.no s.totalNoVotes] }

/-- The `if (!isRegistered[msg.sender]) { ... }` block of `castVote`
(lines 176-179): auto-register the caller and emit `VoterRegistered`. -/
def autoRegister (s : ContractState) (sender : Nat) (extraData : List Nat) :
    ContractState :=
  if s.isRegistered sender then s
  else { s with
    isRegistered := fun a => if a = sender then true else s.isRegistered a
    events := s.events ++ [Event.VoterRegistered sender extraData] }

/-- `castVote(voteHandle, weightHandle, attestation, extraData)`.
The `votingOpen` modifier runs first (`require(block.timestamp <
votingEndTime)`), then `require(initialized)`, then the auto-registration
block, then `require(!hasVoted[msg.sender])`, then the two
`FHE.fromExternal` decodes (which revert when the attestation does not
verify), then the homomorphic tally update, `hasVoted` marking, `VoteCast`
emission and the two `FHE.allowThis` calls. `voteVal`/`weightVal` are the
decoded plaintexts of the two external handles. -/
def castVote (s : ContractState) (sender now voteVal weightVal : Nat)
    (attestationOk : Bool) (extraData : List Nat) :
    Except VoteError ContractState :=
  if s.votingEndTime ≤ now then .error .VotingClosed
  else if s.initialized = false then .error .NotInitialized
  else
    let s1 := autoRegister s sender extraData
    if s1.hasVoted sender then .error .AlreadyVoted
    else if attestationOk = false then .error .InvalidCiphertext
    else
      let vote := fheAsEuint8 voteVal
      let weight := fheAsEuint8 weightVal
      let one := fheAsEuint8 1
      let yesInc := fheMul vote weight
      let noInc := fheMul (fheSub one vote) weight
      let newYes := fheAdd s1.totalYesVotes yesInc
      let newNo := fheAdd s1.totalNoVotes noInc
      .ok { s1 with
        totalYesVotes := newYes
        totalNoVotes := newNo
        hasVoted := fun a => if a = sender then true else s1.hasVoted a
        events := s1.events ++ [Event.VoteCast sender extraData]
        aclLog := s1.aclLog ++
          [AclEntry.tallyContract Slot.yes newYes,
           AclEntry.tallyContract Slot.no newNo] }

/-- `grantMyVoteDecryptAccess(voteHandle, attestation)`:
`require(isRegistered[msg.sender])`, decode, `FHE.allow` to the caller. -/
def grantMyVoteDecryptAccess (s : ContractState) (sender voteVal : Nat)
    (attestationOk : Bool) : Except VoteError ContractState :=
  if s.isRegistered sender = false then .error .Unauthorized
  else if attestationOk = false then .error .InvalidCiphertext
  else .ok { s with
    aclLog := s.aclLog ++ [AclEntry.voteViewer (fheAsEuint8 voteVal) sender] }

/-- `verifyVote(voteHandle, attestation)`: decode, homomorphically test
membership in {0,1}, `FHE.allow` the resulting boolean to the caller. -/
def verifyVote (s : ContractState) (sender voteVal : Nat)
    (attestationOk : Bool) : Except VoteError ContractState :=
  if attestationOk = false then .error .InvalidCiphertext
  else
    let vote := fheAsEuint8 voteVal
    let valid := (vote == 0) || (vote == 1)
    .ok { s with aclLog := s.aclLog ++ [AclEntry.validityViewer valid sender] }

/-- One external call to a deployed contract, with its caller, arguments,
and (for `castVote`) the call-time clock and decoded ciphertext inputs. -/
inductive Call where
  | init (sender : Nat)
  | registerVoter (sender voter : Nat) (extraData : List Nat)
  | castVote (sender now voteVal weightVal : Nat) (attestationOk : Bool)
      (extraData : List Nat)
  | allowTallyAccess (sender viewer : Nat) (extraData : List Nat)
  | makeTallyPublic (sender : Nat)
  | grantMyVoteDecryptAccess (sender voteVal : Nat) (attestationOk : Bool)
  | verifyVote (sender voteVal : Nat) (attestationOk : Bool)

/-- Dispatch one call against a state. -/
def exec (s : ContractState) : Call → Except VoteError ContractState
  | .init sender => init s sender
  | .registerVoter sender voter ed => registerVoter s sender voter ed
  | .castVote sender now vv wv att ed => castVote s sender now vv wv att ed
  | .allowTallyAccess sender viewer ed => allowTallyAccess s sender viewer ed
  | .makeTallyPublic sender => makeTallyPublic s sender
  | .grantMyVoteDecryptAccess sender vv att =>
      grantMyVoteDecryptAccess s sender vv att
  | .verifyVote sender vv att => verifyVote s sender vv att

/-- Transaction-level semantics: a reverted call leaves the chain state
exactly as it was (EVM rollback). -/
def txExec (s : ContractState) (c : Call) : ContractState :=
  match exec s c with
  | .ok s' => s'
  | .error _ => s

/-- States of a deployed contract: the constructed state, closed under any
sequence of (possibly reverting) external calls. -/
inductive Reachable : ContractState → Prop where
  | constructed (sender now dur : Nat) (s : ContractState)
      (h : construct sender now dur = .ok s) : Reachable s
  | step (s : ContractState) (c : Call) (h : Reachable s) :
      Reachable (txExec s c)

/-! ### Projection lemmas for the auto-registration block -/

theorem autoRegister_admin (s : ContractState) (x : Nat) (ed : List Nat) :
    (autoRegister s x ed).admin = s.admin := by
  unfold autoRegister; split <;> rfl

theorem autoRegister_votingEndTime (s : ContractState) (x : Nat)
    (ed : List Nat) : (autoRegister s x ed).votingEndTime = s.votingEndTime := by
  unfold autoRegister; split <;> rfl

theorem autoRegister_initialized (s : ContractState) (x : Nat)
    (ed : List Nat) : (autoRegister s x ed).initialized = s.initialized := by
  unfold autoRegister; split <;> rfl

theorem autoRegister_totalYesVotes (s : ContractState) (x : Nat)
    (ed : List Nat) : (autoRegister s x ed).totalYesVotes = s.totalYesVotes := by
  unfold autoRegister; split <;> rfl

theorem autoRegister_totalNoVotes (s : ContractState) (x : Nat)
    (ed : List Nat) : (autoRegister s x ed).totalNoVotes = s.totalNoVotes := by
  unfold autoRegister; split <;> rfl

theorem autoRegister_hasVoted (s : ContractState) (x : Nat) (ed : List Nat) :
    (autoRegister s x ed).hasVoted = s.hasVoted := by
  unfold autoRegister; split <;> rfl

theorem autoRegister_aclLog (s : ContractState) (x : Nat) (ed : List Nat) :
    (autoRegister s x ed).aclLog = s.aclLog := by
  unfold autoRegister; split <;> rfl

theorem autoRegister_isRegistered_self (s : ContractState) (x : Nat)
    (ed : List Nat) : (autoRegister s x ed).isRegistered x = true := by
  unfold autoRegister; split
  · assumption
  · simp

theorem autoRegister_isRegistered_mono (s : ContractState) (x v : Nat)
    (ed : List Nat) (hv : s.isRegistered v = true) :
    (autoRegister s x ed).isRegistered v = true := by
  unfold autoRegister; split
  · exact hv
  · by_cases h : v = x <;> simp [h, hv]

theorem autoRegister_of_registered (s : ContractState) (x : Nat)
    (ed : List Nat) (h : s.isRegistered x = true) :
    autoRegister s x ed = s := by
  unfold autoRegister; rw [if_pos h]

theorem autoRegister_events_new (s : ContractState) (x : Nat) (ed : List Nat)
    (h : s.isRegistered x = false) :
    (autoRegister s x ed).events = s.events ++ [Event.VoterRegistered x ed] := by
  unfold autoRegister
  rw [if_neg (by simp [h])]

/-! ### Inversion lemmas: what a successful call implies -/

theorem construct_ok {sender now dur : Nat} {s : ContractState}
    (h : construct sender now dur = .ok s) :
    0 < dur ∧ s = { admin := sender
                    votingEndTime := now + dur
                    initialized := false
                    totalYesVotes := 0
                    totalNoVotes := 0
                    isRegistered := fun _ => false
                    hasVoted := fun _ => false
                    events := []
                    aclLog := [] } := by
  unfold construct at h
  split_ifs at h with h1
  injection h with h2
  exact ⟨h1, h2.symm⟩

theorem init_ok {s s' : ContractState} {a : Nat} (h : init s a = .ok s') :
    a = s.admin ∧ s.initialized = false ∧
      s' = { s with
             totalYesVotes := fheAsEuint8 0
             totalNoVotes := fheAsEuint8 0
             initialized := true } := by
  unfold init at h
  split_ifs at h with h1 h2
  injection h with h3
  exact ⟨not_not.mp h1, Bool.eq_false_iff.mpr h2, h3.symm⟩

theorem registerVoter_ok {s s' : ContractState} {sender voter : Nat}
    {ed : List Nat} (h : registerVoter s sender voter ed = .ok s') :
    sender = s.admin ∧ voter ≠ 0 ∧ s.isRegistered voter = false ∧
      s' = { s with
        isRegistered := fun a => if a = voter then true else s.isRegistered a,
        events := s.events ++ [Event.VoterRegistered voter ed] } := by
  unfold registerVoter at h
  split_ifs at h with h1 h2 h3
  injection h with h4
  exact ⟨not_not.mp h1, h2, Bool.eq_false_iff.mpr h3, h4.symm⟩

theorem allowTallyAccess_ok {s s' : ContractState} {sender viewer : Nat}
    {ed : List Nat} (h : allowTallyAccess s sender viewer ed = .ok s') :
    sender = s.admin ∧ viewer ≠ 0 ∧
      s' = { s with
        aclLog := s.aclLog ++
          [AclEntry.tallyViewer Slot.yes s.totalYesVotes viewer,
           AclEntry.tallyViewer Slot.no s.totalNoVotes viewer],
        events := s.events ++ [Event.TallyAccessGranted viewer ed] } := by
  unfold allowTallyAccess at h
  split_ifs at h with h1 h2
  injection h with h3
  exact ⟨not_not.mp h1, h2, h3.symm⟩

theorem makeTallyPublic_ok {s s' : ContractState} {sender : Nat}
    (h : makeTallyPublic s sender = .ok s') :
    sender = s.admin ∧
      s' = { s with
        aclLog := s.aclLog ++
          [AclEntry.tallyPublic Slot.yes s.totalYesVotes,
           AclEntry.tallyPublic Slot.no s.totalNoVotes] } := by
  unfold makeTallyPublic at h
  split_ifs at h with h1
  injection h with h2
  exact ⟨not_not.mp h1, h2.symm⟩

theorem grantMyVoteDecryptAccess_ok {s s' : ContractState}
    {sender vv : Nat} {att : Bool}
    (h : grantMyVoteDecryptAccess s sender vv att = .ok s') :
    s.isRegistered sender = true ∧ att = true ∧
      s' = { s with
        aclLog := s.aclLog ++
          [AclEntry.voteViewer (fheAsEuint8 vv) sender] } := by
  unfold grantMyVoteDecryptAccess at h
  split_ifs at h with h1 h2
  injection h with h3
  exact ⟨by simpa using h1, by simpa using h2, h3.symm⟩

theorem verifyVote_ok {s s' : ContractState} {sender vv : Nat} {att : Bool}
    (h : verifyVote s sender vv att = .ok s') :
    att = true ∧
      s' = { s with
        aclLog := s.aclLog ++
          [AclEntry.validityViewer
            ((fheAsEuint8 vv == 0) || (fheAsEuint8 vv == 1)) sender] } := by
  simp only [verifyVote] at h
  split_ifs at h with h1
  injection h with h2
  exact ⟨by simpa using h1, h2.symm⟩

theorem castVote_ok {s s' : ContractState} {sender now vv wv : Nat}
    {att : Bool} {ed : List Nat}
    (h : castVote s sender now vv wv att ed = .ok s') :
    now < s.votingEndTime ∧ s.initialized = true ∧
      s.hasVoted sender = false ∧ att = true ∧
      s' = { autoRegister s sender ed with
        totalYesVotes := fheAdd s.totalYesVotes
          (fheMul (fheAsEuint8 vv) (fheAsEuint8 wv)),
        totalNoVotes := fheAdd s.totalNoVotes
          (fheMul (fheSub (fheAsEuint8 1) (fheAsEuint8 vv)) (fheAsEuint8 wv)),
        hasVoted := fun a => if a = sender then true else s.hasVoted a,
        events := (autoRegister s sender ed).events ++
          [Event.VoteCast sender ed],
        aclLog := (autoRegister s sender ed).aclLog ++
          [AclEntry.tallyContract Slot.yes
            (fheAdd s.totalYesVotes (fheMul (fheAsEuint8 vv) (fheAsEuint8 wv))),
           AclEntry.tallyContract Slot.no
            (fheAdd s.totalNoVotes
              (fheMul (fheSub (fheAsEuint8 1) (fheAsEuint8 vv))
                (fheAsEuint8 wv)))] } := by
  simp only [castVote] at h
  split_ifs at h with h1 h2 h3 h4
  injection h with h5
  refine ⟨not_le.mp h1, by simpa using h2,
    by simpa [autoRegister_hasVoted] using h3, by simpa using h4, ?_⟩
  rw [← h5]
  simp [autoRegister_totalYesVotes, autoRegister_totalNoVotes,
    autoRegister_hasVoted]

/-! ### Preservation lemmas over single calls -/

theorem txExec_of_error {s : ContractState} {c : Call} {e : VoteError}
    (h : exec s c = .error e) : txExec s c = s := by
  unfold txExec
  rw [h]

theorem txExec_of_ok {s s' : ContractState} {c : Call}
    (h : exec s c = .ok s') : txExec s c = s' := by
  unfold txExec
  rw [h]

theorem exec_ok_hasVoted_mono {s s' : ContractState} {c : Call}
    (hx : exec s c = .ok s') (v : Nat) (hv : s.hasVoted v = true) :
    s'.hasVoted v = true := by
  cases c with
  | init a =>
      simp only [exec] at hx
      obtain ⟨-, -, rfl⟩ := init_ok hx
      exact hv
  | registerVoter a voter ed =>
      simp only [exec] at hx
      obtain ⟨-, -, -, rfl⟩ := registerVoter_ok hx
      exact hv
  | castVote a now vv wv att ed =>
      simp only [exec] at hx
      obtain ⟨-, -, -, -, rfl⟩ := castVote_ok hx
      by_cases hva : v = a <;> simp [hva, hv]
  | allowTallyAccess a viewer ed =>
      simp only [exec] at hx
      obtain ⟨-, -, rfl⟩ := allowTallyAccess_ok hx
      exact hv
  | makeTallyPublic a =>
      simp only [exec] at hx
      obtain ⟨-, rfl⟩ := makeTallyPublic_ok hx
      exact hv
  | grantMyVoteDecryptAccess a vv att =>
      simp only [exec] at hx
      obtain ⟨-, -, rfl⟩ := grantMyVoteDecryptAccess_ok hx
      exact hv
  | verifyVote a vv att =>
      simp only [exec] at hx
      obtain ⟨-, rfl⟩ := verifyVote_ok hx
      exact hv

theorem txExec_hasVoted_mono (s : ContractState) (c : Call) (v : Nat)
    (hv : s.hasVoted v = true) : (txExec s c).hasVoted v = true := by
  unfold txExec
  split
  · exact exec_ok_hasVoted_mono ‹_› v hv
  · exact hv

theorem exec_ok_initialized_mono {s s' : ContractState} {c : Call}
    (hx : exec s c = .ok s') (hi : s.initialized = true) :
    s'.initialized = true := by
  cases c with
  | init a =>
      simp only [exec] at hx
      obtain ⟨-, -, rfl⟩ := init_ok hx
      rfl
  | registerVoter a voter ed =>
      simp only [exec] at hx
      obtain ⟨-, -, -, rfl⟩ := registerVoter_ok hx
      exact hi
  | castVote a now vv wv att ed =>
      simp only [exec] at hx
      obtain ⟨-, h2, -, -, rfl⟩ := castVote_ok hx
      simpa [autoRegister_initialized] using h2
  | allowTallyAccess a viewer ed =>
      simp only [exec] at hx
      obtain ⟨-, -, rfl⟩ := allowTallyAccess_ok hx
      exact hi
  | makeTallyPublic a =>
      simp only [exec] at hx
      obtain ⟨-, rfl⟩ := makeTallyPublic_ok hx
      exact hi
  | grantMyVoteDecryptAccess a vv att =>
      simp only [exec] at hx
      obtain ⟨-, -, rfl⟩ := grantMyVoteDecryptAccess_ok hx
      exact hi
  | verifyVote a vv att =>
      simp only [exec] at hx
      obtain ⟨-, rfl⟩ := verifyVote_ok hx
      exact hi

theorem txExec_initialized_mono (s : ContractState) (c : Call)
    (hi : s.initialized = true) : (txExec s c).initialized = true := by
  unfold txExec
  split
  · exact exec_ok_initialized_mono ‹_› hi
  · exact hi

theorem exec_ok_isRegistered_mono {s s' : ContractState} {c : Call}
    (hx : exec s c = .ok s') (v : Nat) (hv : s.isRegistered v = true) :
    s'.isRegistered v = true := by
  cases c with
  | init a =>
      simp only [exec] at hx
      obtain ⟨-, -, rfl⟩ := init_ok hx
      exact hv
  | registerVoter a voter ed =>
      simp only [exec] at hx
      obtain ⟨-, -, -, rfl⟩ := registerVoter_ok hx
      by_cases hvv : v = voter <;> simp [hvv, hv]
  | castVote a now vv wv att ed =>
      simp only [exec] at hx
      obtain ⟨-, -, -, -, rfl⟩ := castVote_ok hx
      exact autoRegister_isRegistered_mono s a v ed hv
  | allowTallyAccess a viewer ed =>
      simp only [exec] at hx
      obtain ⟨-, -, rfl⟩ := allowTallyAccess_ok hx
      exact hv
  | makeTallyPublic a =>
      simp only [exec] at hx
      obtain ⟨-, rfl⟩ := makeTallyPublic_ok hx
      exact hv
  | grantMyVoteDecryptAccess a vv att =>
      simp only [exec] at hx
      obtain ⟨-, -, rfl⟩ := grantMyVoteDecryptAccess_ok hx
      exact hv
  | verifyVote a vv att =>
      simp only [exec] at hx
      obtain ⟨-, rfl⟩ := verifyVote_ok hx
      exact hv

theorem txExec_isRegistered_mono (s : ContractState) (c : Call) (v : Nat)
    (hv : s.isRegistered v = true) : (txExec s c).isRegistered v = true := by
  unfold txExec
  split
  · exact exec_ok_isRegistered_mono ‹_› v hv
  · exact hv

theorem exec_ok_voted_imp_reg {s s' : ContractState} {c : Call} {v : Nat}
    (hx : exec s c = .ok s')
    (hvr : s.hasVoted v = true → s.isRegistered v = true)
    (hv' : s'.hasVoted v = true) : s'.isRegistered v = true := by
  cases c with
  | init a =>
      simp only [exec] at hx
      obtain ⟨-, -, rfl⟩ := init_ok hx
      exact hvr hv'
  | registerVoter a voter ed =>
      simp only [exec] at hx
      obtain ⟨-, -, -, rfl⟩ := registerVoter_ok hx
      by_cases hvv : v = voter <;> simp_all
  | castVote a now vv wv att ed =>
      simp only [exec] at hx
      obtain ⟨-, -, -, -, rfl⟩ := castVote_ok hx
      by_cases hva : v = a
      · subst hva
        exact autoRegister_isRegistered_self s v ed
      · simp only [ContractState.hasVoted] at hv'
        rw [if_neg hva] at hv'
        exact autoRegister_isRegistered_mono s a v ed (hvr hv')
  | allowTallyAccess a viewer ed =>
      simp only [exec] at hx
      obtain ⟨-, -, rfl⟩ := allowTallyAccess_ok hx
      exact hvr hv'
  | makeTallyPublic a =>
      simp only [exec] at hx
      obtain ⟨-, rfl⟩ := makeTallyPublic_ok hx
      exact hvr hv'
  | grantMyVoteDecryptAccess a vv att =>
      simp only [exec] at hx
      obtain ⟨-, -, rfl⟩ := grantMyVoteDecryptAccess_ok hx
      exact hvr hv'
  | verifyVote a vv att =>
      simp only [exec] at hx
      obtain ⟨-, rfl⟩ := verifyVote_ok hx
      exact hvr hv'

theorem exec_ok_voted_imp_init {s s' : ContractState} {c : Call} {v : Nat}
    (hx : exec s c = .ok s')
    (hvi : s.hasVoted v = true → s.initialized = true)
    (hv' : s'.hasVoted v = true) : s'.initialized = true := by
  cases c with
  | init a =>
      simp only [exec] at hx
      obtain ⟨-, -, rfl⟩ := init_ok hx
      rfl
  | registerVoter a voter ed =>
      simp only [exec] at hx
      obtain ⟨-, -, -, rfl⟩ := registerVoter_ok hx
      exact hvi hv'
  | castVote a now vv wv att ed =>
      simp only [exec] at hx
      obtain ⟨-, h2, -, -, rfl⟩ := castVote_ok hx
      simpa [autoRegister_initialized] using h2
  | allowTallyAccess a viewer ed =>
      simp only [exec] at hx
      obtain ⟨-, -, rfl⟩ := allowTallyAccess_ok hx
      exact hvi hv'
  | makeTallyPublic a =>
      simp only [exec] at hx
      obtain ⟨-, rfl⟩ := makeTallyPublic_ok hx
      exact hvi hv'
  | grantMyVoteDecryptAccess a vv att =>
      simp only [exec] at hx
      obtain ⟨-, -, rfl⟩ := grantMyVoteDecryptAccess_ok hx
      exact hvi hv'
  | verifyVote a vv att =>
      simp only [exec] at hx
      obtain ⟨-, rfl⟩ := verifyVote_ok hx
      exact hvi hv'

theorem exec_ok_uninit_totals {s s' : ContractState} {c : Call}
    (hx : exec s c = .ok s')
    (h0 : s.initialized = false →
      s.totalYesVotes = 0 ∧ s.totalNoVotes = 0)
    (hu : s'.initialized = false) :
    s'.totalYesVotes = 0 ∧ s'.totalNoVotes = 0 := by
  cases c with
  | init a =>
      simp only [exec] at hx
      obtain ⟨-, -, rfl⟩ := init_ok hx
      simp at hu
  | registerVoter a voter ed =>
      simp only [exec] at hx
      obtain ⟨-, -, -, rfl⟩ := registerVoter_ok hx
      exact h0 hu
  | castVote a now vv wv att ed =>
      simp only [exec] at hx
      obtain ⟨-, h2, -, -, rfl⟩ := castVote_ok hx
      simp only [ContractState.initialized, autoRegister_initialized] at hu
      rw [h2] at hu
      cases hu
  | allowTallyAccess a viewer ed =>
      simp only [exec] at hx
      obtain ⟨-, -, rfl⟩ := allowTallyAccess_ok hx
      exact h0 hu
  | makeTallyPublic a =>
      simp only [exec] at hx
      obtain ⟨-, rfl⟩ := makeTallyPublic_ok hx
      exact h0 hu
  | grantMyVoteDecryptAccess a vv att =>
      simp only [exec] at hx
      obtain ⟨-, -, rfl⟩ := grantMyVoteDecryptAccess_ok hx
      exact h0 hu
  | verifyVote a vv att =>
      simp only [exec] at hx
      obtain ⟨-, rfl⟩ := verifyVote_ok hx
      exact h0 hu

/-! ### The inductive invariant of reachable states -/

/-- The key state invariants: a recorded vote implies registration, a
recorded vote implies the tallies were set up, and before setup the two
tallies still hold their default (zero) values. -/
def Inv (s : ContractState) : Prop :=
  (∀ v, s.hasVoted v = true → s.isRegistered v = true) ∧
  (∀ v, s.hasVoted v = true → s.initialized = true) ∧
  (s.initialized = false → s.totalYesVotes = 0 ∧ s.totalNoVotes = 0)

theorem inv_construct {sender now dur : Nat} {s : ContractState}
    (h : construct sender now dur = .ok s) : Inv s := by
  obtain ⟨-, rfl⟩ := construct_ok h
  refine ⟨fun v hv => by simp at hv, fun v hv => by simp at hv,
    fun _ => ⟨rfl, rfl⟩⟩

theorem inv_exec_ok {s s' : ContractState} {c : Call} (hInv : Inv s)
    (hx : exec s c = .ok s') : Inv s' :=
  ⟨fun v => exec_ok_voted_imp_reg hx (hInv.1 v),
   fun v => exec_ok_voted_imp_init hx (hInv.2.1 v),
   exec_ok_uninit_totals hx hInv.2.2⟩

theorem inv_txExec {s : ContractState} (hInv : Inv s) (c : Call) :
    Inv (txExec s c) := by
  unfold txExec
  split
  · exact inv_exec_ok hInv ‹_›
  · exact hInv

theorem inv_reachable {s : ContractState} (h : Reachable s) : Inv s := by
  induction h with
  | constructed sender now dur s hc => exact inv_construct hc
  | step s c hr ih => exact inv_txExec ih c

/-! ### Concrete demonstration states -/

/-- Whether a call succeeded. -/
def isOk : Except VoteError ContractState → Bool
  | .ok _ => true
  | .error _ => false

/-- State right after `construct(100)` deployed by address 1 at time 0. -/
def sDeployed : ContractState :=
  { admin := 1
    votingEndTime := 100
    initialized := false
    totalYesVotes := 0
    totalNoVotes := 0
    isRegistered := fun _ => false
    hasVoted := fun _ => false
    events := []
    aclLog := [] }

/-- `sDeployed` after the admin ran `init()`. -/
def sInited : ContractState := txExec sDeployed (Call.init 1)

/-- `sInited` after voter 2 cast vote 1 with weight 1 at time 10. -/
def sVoted : ContractState :=
  txExec sInited (Call.castVote 2 10 1 1 true [])

theorem reachable_sDeployed : Reachable sDeployed :=
  Reachable.constructed 1 0 100 sDeployed rfl

theorem reachable_sInited : Reachable sInited :=
  Reachable.step sDeployed (Call.init 1) reachable_sDeployed

theorem reachable_sVoted : Reachable sVoted :=
  Reachable.step sInited (Call.castVote 2 10 1 1 true []) reachable_sInited

/-- State right after `construct(86400)` deployed by address 1 at time 0
(Scenario A of the specification). -/
def sDeployedA : ContractState :=
  { admin := 1
    votingEndTime := 86400
    initialized := false
    totalYesVotes := 0
    totalNoVotes := 0
    isRegistered := fun _ => false
    hasVoted := fun _ => false
    events := []
    aclLog := [] }

/-- `sDeployedA` after the admin ran `init()`. -/
def sInitedA : ContractState := txExec sDeployedA (Call.init 1)

/-- `sInitedA` after voter 2 cast vote 1 with weight 5 at time 10. -/
def sVotedA : ContractState :=
  txExec sInitedA (Call.castVote 2 10 1 5 true [])

/-! ### Claim C1 -/

/-- C1 counterexample: in the code the `votingOpen` modifier (deadline check)
runs before `require(initialized)`, so a `castVote` made while `initialized`
is false but after the deadline fails with `VotingClosed`, not with
`NotInitialized` as the claim states. -/
theorem c1_counterexample :
    sDeployed.initialized = false ∧
    castVote sDeployed 2 150 1 1 true [] = .error VoteError.VotingClosed ∧
    VoteError.VotingClosed ≠ VoteError.NotInitialized :=
  ⟨rfl, rfl, by decide⟩

/-- C1 (amended): the `votingOpen` modifier runs first, so the deadline
check precedes the `initialized` check: any `castVote` at or after
`votingEndTime` fails with `VotingClosed` (even when `initialized` is
false), and a `castVote` strictly before the deadline with `initialized`
still false fails with `NotInitialized`. -/
theorem c1_check_order (s : ContractState) (sender now vv wv : Nat)
    (att : Bool) (ed : List Nat) :
    (s.votingEndTime ≤ now →
      castVote s sender now vv wv att ed = .error VoteError.VotingClosed) ∧
    (now < s.votingEndTime → s.initialized = false →
      castVote s sender now vv wv att ed = .error VoteError.NotInitialized) := by
  constructor
  · intro h
    unfold castVote
    rw [if_pos h]
  · intro h hinit
    unfold castVote
    rw [if_neg (not_le.mpr h), if_pos hinit]

/-- Witness for `c1_check_order` on `sDeployed` (both orderings). -/
theorem c1_check_order_witness :
    castVote sDeployed 2 150 1 1 true [] = .error VoteError.VotingClosed ∧
    castVote sDeployed 2 50 1 1 true [] = .error VoteError.NotInitialized :=
  ⟨(c1_check_order sDeployed 2 150 1 1 true []).1 (by decide),
   (c1_check_order sDeployed 2 50 1 1 true []).2 (by decide) (by decide)⟩

/-! ### Claim C5 -/

/-- C5: every `castVote` at or after `votingEndTime` fails with
`VotingClosed`, for every caller, every registration state, every
attestation, and whether or not `init` has run — the deadline modifier
fires before anything else. -/
theorem c5_deadline (s : ContractState) (sender now vv wv : Nat)
    (att : Bool) (ed : List Nat) (h : s.votingEndTime ≤ now) :
    castVote s sender now vv wv att ed = .error VoteError.VotingClosed := by
  unfold castVote
  rw [if_pos h]

/-- Witness for `c5_deadline`: exactly at the deadline, on an uninitialized
contract, from an unregistered caller with a bad attestation. -/
theorem c5_deadline_witness :
    castVote sDeployed 3 100 1 1 false [] = .error VoteError.VotingClosed :=
  c5_deadline sDeployed 3 100 1 1 false [] (by decide)

/-! ### Claim C2 -/

/-- C2: transaction atomicity. Any failing call leaves the state (storage,
events, ACL log) exactly as it was; in particular, when an unregistered
caller's `castVote` performs the auto-registration step and the ciphertext
verification then rejects the attestation, the speculative `isRegistered`
write (visible in the intermediate `autoRegister` state) does not
persist. -/
theorem c2_atomicity :
    (∀ s c e, exec s c = .error e → txExec s c = s) ∧
    (∀ s sender now vv wv ed,
      now < s.votingEndTime → s.initialized = true →
      s.isRegistered sender = false → s.hasVoted sender = false →
      (autoRegister s sender ed).isRegistered sender = true ∧
      castVote s sender now vv wv false ed =
        .error VoteError.InvalidCiphertext ∧
      txExec s (Call.castVote sender now vv wv false ed) = s) := by
  constructor
  · intro s c e h
    exact txExec_of_error h
  · intro s sender now vv wv ed h1 h2 h3 h4
    have hcast : castVote s sender now vv wv false ed =
        .error VoteError.InvalidCiphertext := by
      simp only [castVote]
      rw [if_neg (not_le.mpr h1), if_neg (by simp [h2])]
      simp [autoRegister_hasVoted, h4]
    have hcast' : exec s (Call.castVote sender now vv wv false ed) =
        .error VoteError.InvalidCiphertext := hcast
    exact ⟨autoRegister_isRegistered_self s sender ed, hcast,
      txExec_of_error hcast'⟩

/-- Witness for `c2_atomicity`: voter 2 on the initialized demo contract
with a rejected attestation. -/
theorem c2_atomicity_witness :
    (autoRegister sInited 2 []).isRegistered 2 = true ∧
    castVote sInited 2 10 1 1 false [] = .error VoteError.InvalidCiphertext ∧
    txExec sInited (Call.castVote 2 10 1 1 false []) = sInited :=
  c2_atomicity.2 sInited 2 10 1 1 [] (by decide) (by decide) (by decide)
    (by decide)

/-! ### Claim C3 -/

/-- C3 counterexample: after voter 2 voted successfully, a further
`castVote` attempt made at or after the deadline fails with
`VotingClosed`, not `AlreadyVoted` as the claim states (the deadline
modifier fires first). -/
theorem c3_counterexample :
    sVoted.hasVoted 2 = true ∧
    castVote sVoted 2 200 1 1 true [] = .error VoteError.VotingClosed ∧
    VoteError.VotingClosed ≠ VoteError.AlreadyVoted :=
  ⟨by decide, rfl, by decide⟩

/-- C3 (amended): at most one `castVote` from any voter ever succeeds —
a success requires `hasVoted` to be false and flips it to true, the flag
is never unset by any call, and on every reachable state any further
attempt by that voter fails, with `AlreadyVoted` when made strictly before
`votingEndTime` and with `VotingClosed` otherwise, leaving the whole state
(totals included) unchanged. -/
theorem c3_one_vote :
    (∀ s s' sender now vv wv att ed,
      castVote s sender now vv wv att ed = Except.ok s' →
      s.hasVoted sender = false ∧ s'.hasVoted sender = true) ∧
    (∀ s c v, s.hasVoted v = true → (txExec s c).hasVoted v = true) ∧
    (∀ s, Reachable s → ∀ v, s.hasVoted v = true →
      ∀ now vv wv att ed,
        (now < s.votingEndTime →
          castVote s v now vv wv att ed = .error VoteError.AlreadyVoted) ∧
        (s.votingEndTime ≤ now →
          castVote s v now vv wv att ed = .error VoteError.VotingClosed) ∧
        txExec s (Call.castVote v now vv wv att ed) = s) := by
  refine ⟨?_, txExec_hasVoted_mono, ?_⟩
  · intro s s' sender now vv wv att ed h
    obtain ⟨-, -, h3, -, rfl⟩ := castVote_ok h
    exact ⟨h3, by simp⟩
  · intro s hr v hv now vv wv att ed
    have hinit : s.initialized = true := (inv_reachable hr).2.1 v hv
    have hA : now < s.votingEndTime →
        castVote s v now vv wv att ed = .error VoteError.AlreadyVoted := by
      intro hlt
      simp only [castVote]
      rw [if_neg (not_le.mpr hlt), if_neg (by simp [hinit])]
      simp [autoRegister_hasVoted, hv]
    have hB : s.votingEndTime ≤ now →
        castVote s v now vv wv att ed = .error VoteError.VotingClosed := by
      intro hge
      unfold castVote
      rw [if_pos hge]
    refine ⟨hA, hB, ?_⟩
    rcases le_or_lt s.votingEndTime now with hge | hlt
    · have h' : exec s (Call.castVote v now vv wv att ed) =
          .error VoteError.VotingClosed := hB hge
      exact txExec_of_error h'
    · have h' : exec s (Call.castVote v now vv wv att ed) =
          .error VoteError.AlreadyVoted := hA hlt
      exact txExec_of_error h'

/-- Witness for `c3_one_vote` on the demo trace: voter 2 already voted, a
repeat attempt while voting is open fails `AlreadyVoted`, one after the
deadline fails `VotingClosed`, and neither changes the state. -/
theorem c3_one_vote_witness :
    castVote sVoted 2 50 1 1 true [] = .error VoteError.AlreadyVoted ∧
    castVote sVoted 2 200 1 1 true [] = .error VoteError.VotingClosed ∧
    txExec sVoted (Call.castVote 2 200 1 1 true []) = sVoted :=
  ⟨(c3_one_vote.2.2 sVoted reachable_sVoted 2 (by decide) 50 1 1 true []).1
     (by decide),
   (c3_one_vote.2.2 sVoted reachable_sVoted 2 (by decide) 200 1 1 true []).2.1
     (by decide),
   (c3_one_vote.2.2 sVoted reachable_sVoted 2 (by decide) 200 1 1 true []).2.2⟩

/-! ### Claim C4 -/

/-- C4: a successful `castVote` with decoded vote `v` and weight `w` adds
`v*w` to the yes-total and `(1-v)*w` (with `1-v` taken mod 2^8) to the
no-total, all arithmetic wrapping mod 2^8 with no overflow check; and in
Scenario A (`construct(86400)`, `init()`, vote 1 with weight 5) the
yes-total increases by 5 and the no-total is unchanged. -/
theorem c4_tally_update :
    (∀ s s' sender now vv wv ed,
      castVote s sender now vv wv true ed = Except.ok s' →
      s'.totalYesVotes = (s.totalYesVotes + (vv % 256) * (wv % 256)) % 256 ∧
      s'.totalNoVotes =
        (s.totalNoVotes + ((1 + (256 - vv % 256)) % 256) * (wv % 256)) % 256) ∧
    (castVote sInitedA 2 10 1 5 true [] = Except.ok sVotedA ∧
      sVotedA.totalYesVotes = sInitedA.totalYesVotes + 5 ∧
      sVotedA.totalNoVotes = sInitedA.totalNoVotes ∧
      sVotedA.totalYesVotes = 5 ∧ sVotedA.totalNoVotes = 0) := by
  constructor
  · intro s s' sender now vv wv ed h
    obtain ⟨-, -, -, -, rfl⟩ := castVote_ok h
    constructor
    · show fheAdd s.totalYesVotes
        (fheMul (fheAsEuint8 vv) (fheAsEuint8 wv)) = _
      unfold fheAdd fheMul fheAsEuint8
      generalize vv % 256 * (wv % 256) = k
      omega
    · show fheAdd s.totalNoVotes
        (fheMul (fheSub (fheAsEuint8 1) (fheAsEuint8 vv)) (fheAsEuint8 wv)) = _
      unfold fheAdd fheMul fheSub fheAsEuint8
      have he : (1 % 256 + (256 - vv % 256 % 256)) % 256 =
          (1 + (256 - vv % 256)) % 256 := by omega
      rw [he]
      generalize (1 + (256 - vv % 256)) % 256 * (wv % 256) = k
      omega
  · exact ⟨rfl, by decide, by decide, by decide, by decide⟩

/-- Witness for `c4_tally_update` at the Scenario A input. -/
theorem c4_tally_update_witness :
    sVotedA.totalYesVotes =
      (sInitedA.totalYesVotes + (1 % 256) * (5 % 256)) % 256 ∧
    sVotedA.totalNoVotes =
      (sInitedA.totalNoVotes + ((1 + (256 - 1 % 256)) % 256) * (5 % 256)) % 256 :=
  c4_tally_update.1 sInitedA sVotedA 2 10 1 5 [] rfl

/-! ### Claim C6 -/

/-- C6: `init` is admin-only (`Unauthorized` for any other caller); a
successful run sets both totals to encrypted zero and flips `initialized`
to true; `initialized` then stays true across every later call, so a
second admin call always fails with `AlreadyInitialized`, and any second
call (whatever the caller) leaves the whole state — totals included —
unchanged. -/
theorem c6_init_once :
    (∀ s a, a ≠ s.admin → init s a = .error VoteError.Unauthorized) ∧
    (∀ s a s', init s a = .ok s' →
      s'.initialized = true ∧ s'.totalYesVotes = fheAsEuint8 0 ∧
      s'.totalNoVotes = fheAsEuint8 0) ∧
    (∀ s c, s.initialized = true → (txExec s c).initialized = true) ∧
    (∀ s, s.initialized = true →
      init s s.admin = .error VoteError.AlreadyInitialized) ∧
    (∀ s a, s.initialized = true → txExec s (Call.init a) = s) := by
  refine ⟨?_, ?_, txExec_initialized_mono, ?_, ?_⟩
  · intro s a h
    unfold init
    rw [if_pos h]
  · intro s a s' h
    obtain ⟨-, -, rfl⟩ := init_ok h
    exact ⟨rfl, rfl, rfl⟩
  · intro s h
    unfold init
    rw [if_neg (by simp), if_pos h]
  · intro s a h
    by_cases ha : a = s.admin
    · have h' : exec s (Call.init a) = .error VoteError.AlreadyInitialized := by
        show init s a = _
        unfold init
        rw [if_neg (by simp [ha]), if_pos h]
      exact txExec_of_error h'
    · have h' : exec s (Call.init a) = .error VoteError.Unauthorized := by
        show init s a = _
        unfold init
        rw [if_pos ha]
      exact txExec_of_error h'

/-- Witness for `c6_init_once` on the demo states: a non-admin `init`
fails `Unauthorized`, the admin run set the totals and flag, and a second
admin `init` fails `AlreadyInitialized` changing nothing. -/
theorem c6_init_once_witness :
    init sDeployed 2 = .error VoteError.Unauthorized ∧
    sInited.initialized = true ∧
    init sInited sInited.admin = .error VoteError.AlreadyInitialized ∧
    txExec sInited (Call.init 1) = sInited :=
  ⟨c6_init_once.1 sDeployed 2 (by decide),
   (c6_init_once.2.1 sDeployed 1 sInited rfl).1,
   c6_init_once.2.2.2.1 sInited (by decide),
   c6_init_once.2.2.2.2 sInited 1 (by decide)⟩

/-! ### Claim C7 -/

/-- C7: in every reachable state, a recorded vote implies registration;
moreover every single call preserves the implication `hasVoted[v] →
isRegistered[v]` (registration is written before `hasVoted` inside
`castVote`, and `registerVoter` only adds registrations). -/
theorem c7_voted_registered :
    (∀ s c v, (s.hasVoted v = true → s.isRegistered v = true) →
      (txExec s c).hasVoted v = true → (txExec s c).isRegistered v = true) ∧
    (∀ s, Reachable s → ∀ v, s.hasVoted v = true → s.isRegistered v = true) := by
  constructor
  · intro s c v hvr
    unfold txExec
    split
    · exact exec_ok_voted_imp_reg ‹_› hvr
    · exact hvr
  · intro s hr v
    exact (inv_reachable hr).1 v

/-- Witness for `c7_voted_registered` on the demo trace: voter 2 has voted
in `sVoted`, hence is registered there. -/
theorem c7_voted_registered_witness :
    sVoted.hasVoted 2 = true ∧ sVoted.isRegistered 2 = true :=
  ⟨by decide, c7_voted_registered.2 sVoted reachable_sVoted 2 (by decide)⟩

/-! ### Claim C8 -/

/-- C8: an unregistered caller's `castVote` does not fail for lack of
registration: with voting open, the contract initialized, the caller not
having voted and a valid attestation, the call succeeds, auto-registers
the caller, emits the `VoterRegistered` event followed by `VoteCast`, and
records the vote. -/
theorem c8_auto_register (s : ContractState) (sender now vv wv : Nat)
    (ed : List Nat) (h1 : now < s.votingEndTime) (h2 : s.initialized = true)
    (h3 : s.isRegistered sender = false) (h4 : s.hasVoted sender = false) :
    isOk (castVote s sender now vv wv true ed) = true ∧
    (txExec s (Call.castVote sender now vv wv true ed)).isRegistered sender
      = true ∧
    (txExec s (Call.castVote sender now vv wv true ed)).hasVoted sender
      = true ∧
    (txExec s (Call.castVote sender now vv wv true ed)).events =
      s.events ++ [Event.VoterRegistered sender ed, Event.VoteCast sender ed] := by
  cases hres : castVote s sender now vv wv true ed with
  | error e =>
      exfalso
      simp only [castVote] at hres
      split_ifs at hres with g1 g2 g3 g4
      · exact absurd g1 (not_le.mpr h1)
      · rw [h2] at g2
        cases g2
      · rw [autoRegister_hasVoted, h4] at g3
        cases g3
      · cases g4
  | ok s' =>
      have htx : exec s (Call.castVote sender now vv wv true ed) = .ok s' :=
        hres
      obtain ⟨-, -, -, -, hR⟩ := castVote_ok hres
      subst hR
      rw [txExec_of_ok htx]
      refine ⟨rfl, ?_, by simp, ?_⟩
      · exact autoRegister_isRegistered_self s sender ed
      · show (autoRegister s sender ed).events ++ [Event.VoteCast sender ed] = _
        rw [autoRegister_events_new s sender ed h3]
        simp

/-- Witness for `c8_auto_register`: the unregistered voter 5 votes 0 with
weight 7 on the initialized demo contract. -/
theorem c8_auto_register_witness :
    isOk (castVote sInited 5 20 0 7 true []) = true ∧
    (txExec sInited (Call.castVote 5 20 0 7 true [])).isRegistered 5 = true ∧
    (txExec sInited (Call.castVote 5 20 0 7 true [])).hasVoted 5 = true ∧
    (txExec sInited (Call.castVote 5 20 0 7 true [])).events =
      sInited.events ++ [Event.VoterRegistered 5 [], Event.VoteCast 5 []] :=
  c8_auto_register sInited 5 20 0 7 [] (by decide) (by decide) (by decide)
    (by decide)

/-! ### Claim C9 -/

/-- C9: `registerVoter` reads neither the clock nor `initialized` (it has
no time parameter in the embedding because the source never consults
`block.timestamp`): on every state — deadline long past or `initialized`
still false — an admin call with a nonzero, not-yet-registered voter
succeeds and sets `isRegistered[voter]`. -/
theorem c9_register_anytime (s : ContractState) (voter : Nat)
    (ed : List Nat) (h0 : voter ≠ 0) (h1 : s.isRegistered voter = false) :
    registerVoter s s.admin voter ed = .ok
      { s with
        isRegistered := fun a => if a = voter then true else s.isRegistered a
        events := s.events ++ [Event.VoterRegistered voter ed] } ∧
    (txExec s (Call.registerVoter s.admin voter ed)).isRegistered voter
      = true := by
  have hok : registerVoter s s.admin voter ed = .ok
      { s with
        isRegistered := fun a => if a = voter then true else s.isRegistered a
        events := s.events ++ [Event.VoterRegistered voter ed] } := by
    unfold registerVoter
    rw [if_neg (by simp), if_neg h0, if_neg (by simp [h1])]
  have hok' : exec s (Call.registerVoter s.admin voter ed) = .ok
      { s with
        isRegistered := fun a => if a = voter then true else s.isRegistered a
        events := s.events ++ [Event.VoterRegistered voter ed] } := hok
  refine ⟨hok, ?_⟩
  rw [txExec_of_ok hok']
  simp

/-- Witness for `c9_register_anytime`: on the freshly deployed,
uninitialized demo contract — and `sDeployed` is time-independent, the
same state stands at any call time past the deadline. -/
theorem c9_register_anytime_witness :
    sDeployed.initialized = false ∧
    (txExec sDeployed (Call.registerVoter sDeployed.admin 7 [])).isRegistered 7
      = true :=
  ⟨by decide, (c9_register_anytime sDeployed 7 [] (by decide) (by decide)).2⟩

/-! ### Claim C10 -/

/-- C10: neither `allowTallyAccess` nor `makeTallyPublic` checks
`initialized`: called by the admin (with a nonzero viewer for the former)
they succeed on any state, in particular before `init`, granting or
publicizing decrypt access on the tally values of that state — which on
every reachable uninitialized state are still the default zeros. -/
theorem c10_access_no_init :
    (∀ s viewer ed, viewer ≠ 0 → s.initialized = false →
      allowTallyAccess s s.admin viewer ed = .ok
        { s with
          aclLog := s.aclLog ++
            [AclEntry.tallyViewer Slot.yes s.totalYesVotes viewer,
             AclEntry.tallyViewer Slot.no s.totalNoVotes viewer]
          events := s.events ++ [Event.TallyAccessGranted viewer ed] }) ∧
    (∀ s, s.initialized = false →
      makeTallyPublic s s.admin = .ok
        { s with
          aclLog := s.aclLog ++
            [AclEntry.tallyPublic Slot.yes s.totalYesVotes,
             AclEntry.tallyPublic Slot.no s.totalNoVotes] }) ∧
    (∀ s, Reachable s → s.initialized = false →
      s.totalYesVotes = 0 ∧ s.totalNoVotes = 0) := by
  refine ⟨?_, ?_, ?_⟩
  · intro s viewer ed hv _
    unfold allowTallyAccess
    rw [if_neg (by simp), if_neg hv]
  · intro s _
    unfold makeTallyPublic
    rw [if_neg (by simp)]
  · intro s hr h
    exact (inv_reachable hr).2.2 h

/-- Witness for `c10_access_no_init` on the freshly deployed contract,
whose tallies still hold the default zeros. -/
theorem c10_access_no_init_witness :
    isOk (allowTallyAccess sDeployed sDeployed.admin 9 []) = true ∧
    isOk (makeTallyPublic sDeployed sDeployed.admin) = true ∧
    sDeployed.totalYesVotes = 0 ∧ sDeployed.totalNoVotes = 0 := by
  have h1 := c10_access_no_init.1 sDeployed 9 [] (by decide) (by decide)
  have h2 := c10_access_no_init.2.1 sDeployed (by decide)
  have h3 := c10_access_no_init.2.2 sDeployed reachable_sDeployed (by decide)
  exact ⟨by rw [h1]; rfl, by rw [h2]; rfl, h3.1, h3.2⟩

end ConfidentialVoting
